import Mathlib

/-!
Verification development for the directive-processing and AST-construction core
of the rs_vue2 template compiler (crates/rs_vue2_compiler). The definitions
below are a shallow embedding of src/crates/rs_vue2_compiler/src/ast_tree.rs
and src/crates/rs_vue2_compiler/src/lib.rs: machine types become Nat, Rust
Option becomes Option, panicking operations return Except, the reference
counted shared nodes become addresses into an explicit heap (a list of nodes),
and the case insensitive ordered attribute map becomes an association list with
case insensitive first-match lookup.
-/

namespace VueC

/-- Quote kind of an attribute value, from the external tokenizer token model. -/
inductive QuoteType where
  | NoValue
  | Unquoted
  | Single
  | Double
deriving DecidableEq, Repr

/-- Token discriminant, from rs_html_parser_tokens. -/
inductive TokenKind where
  | OpenTag
  | CloseTag
  | Text
  | ProcessingInstruction
deriving DecidableEq, Repr

/-- Ways the embedded code can abort: Option.unwrap on None, a RefCell double
borrow, and the todo macro in the driver. -/
inductive Panic where
  | unwrapNone
  | borrowErr
  | todoUnimplemented
deriving DecidableEq, Repr

/-- Raw attribute map: ordered list of attribute name to optional value and
quote kind (a present key with none denotes a value-less attribute). Lookup is
case insensitive on the key. -/
abbrev AttrsMap := List (String × Option (String × QuoteType))

/-- Lower an ASCII upper case character, as Rust eq_ignore_ascii_case does. -/
def asciiLower (c : Char) : Char :=
  if 'A' ≤ c && c ≤ 'Z' then Char.ofNat (c.toNat + 32) else c

/-- Case insensitive string equality (ASCII folding), used for the unicase
keyed maps and for eq_ignore_ascii_case on tag names. -/
def eqIC (a b : String) : Bool :=
  a.data.map asciiLower == b.data.map asciiLower

/-- Unicode white space test matching the Rust regex class and str trim. -/
def isWsChar (c : Char) : Bool :=
  c = ' ' || ('\t' ≤ c && c ≤ '\x0d') ||
  c.val = 0x85 || c.val = 0xA0 || c.val = 0x1680 ||
  (0x2000 ≤ c.val && c.val ≤ 0x200A) ||
  c.val = 0x2028 || c.val = 0x2029 || c.val = 0x202F || c.val = 0x205F ||
  c.val = 0x3000

/-- Length of the maximal white space prefix. -/
def wsRunLen : List Char → Nat
  | [] => 0
  | c :: rest => if isWsChar c then wsRunLen rest + 1 else 0

def listStartsWith : List Char → List Char → Bool
  | _, [] => true
  | [], _ :: _ => false
  | a :: as, b :: bs => a = b && listStartsWith as bs

def strStartsWith (s p : String) : Bool := listStartsWith s.data p.data

def strDropChars (s : String) (n : Nat) : String := ⟨s.data.drop n⟩

def strIsEmpty (s : String) : Bool := s.data.isEmpty

/-- Rust str trim: strip white space from both ends. -/
def trimStr (s : String) : String :=
  ⟨((s.data.dropWhile isWsChar).reverse.dropWhile isWsChar).reverse⟩

/-- Part of the simulation of the regex FOR_ALIAS_RE: after the lazy first
group, match one or more white space characters, the keyword in or of, one or
more white space characters, then capture the rest as the second group. The
first argument is the suffix at the candidate split, the second the white
space run length still allowed for the greedy first white space gap. -/
def forAliasTryWs (cs : List Char) : Nat → Option (List Char)
  | 0 => none
  | w + 1 =>
    let r := cs.drop (w + 1)
    let kw :=
      if listStartsWith r ['i', 'n'] || listStartsWith r ['o', 'f'] then
        let r2 := r.drop 2
        let w2 := wsRunLen r2
        if w2 = 0 then none else some (r2.drop w2)
      else none
    match kw with
    | some g2 => some g2
    | none => forAliasTryWs cs w

/-- Search for the leftmost (lazy first group) split realizing FOR_ALIAS_RE. -/
def forAliasSearch (s : List Char) (i : Nat) : Nat → Option (List Char × List Char)
  | 0 => none
  | fuel + 1 =>
    match forAliasTryWs (s.drop i) (wsRunLen (s.drop i)) with
    | some g2 => some (s.take i, g2)
    | none =>
      if i < s.length then forAliasSearch s (i + 1) fuel else none

/-- Captures of the regex FOR_ALIAS_RE on the whole expression: the lazily
matched alias part and the greedily matched iterated expression. -/
def forAliasCaptures (s : String) : Option (String × String) :=
  (forAliasSearch s.data 0 (s.data.length + 1)).map
    (fun p => (⟨p.1⟩, ⟨p.2⟩))

/-- Simulation of replace_all with the regex STRIP_PARENS_RE: remove one
leading opening parenthesis and one trailing closing parenthesis. -/
def stripParensReplace (s : String) : String :=
  let cs := s.data
  let cs := if cs.head? = some '(' then cs.tail else cs
  let cs := if cs.getLast? = some ')' then cs.dropLast else cs
  ⟨cs⟩

/-- Character allowed inside a FOR_ITERATOR_RE capture group. -/
def itCharOk (c : Char) : Bool := !(c = ',' || c = '}' || c = ']')

/-- Length of the maximal prefix of characters allowed in an iterator group. -/
def itRunLen : List Char → Nat
  | [] => 0
  | c :: rest => if itCharOk c then itRunLen rest + 1 else 0

/-- Try to match FOR_ITERATOR_RE right after a comma: one capture group, an
optional second comma with capture group, then the end of the string. -/
def forIteratorAt (cs : List Char) : Option (List Char × Option (List Char)) :=
  let m1 := itRunLen cs
  let t1 := cs.drop m1
  match t1 with
  | [] => some (cs.take m1, none)
  | c :: t2 =>
    if c = ',' then
      let m2 := itRunLen t2
      if t2.drop m2 = [] then some (cs.take m1, some (t2.take m2)) else none
    else none

/-- Leftmost match of FOR_ITERATOR_RE: scan for the first comma whose suffix
matches to the end of the string. -/
def forIteratorSearch : List Char → Option (List Char × Option (List Char))
  | [] => none
  | c :: rest =>
    if c = ',' then
      match forIteratorAt rest with
      | some r => some r
      | none => forIteratorSearch rest
    else forIteratorSearch rest

/-- Simulation of is_match for the regex SLOT_RE. -/
def slotReTest (s : String) : Bool :=
  strStartsWith s "v-slot:" || s = "v-slot" || strStartsWith s "#"

/-- Simulation of replace_all with SLOT_RE: strip the anchored v-slot or
shorthand marker. -/
def slotReReplace (b : String) : String :=
  if strStartsWith b "v-slot:" then strDropChars b 7
  else if b = "v-slot" then ""
  else if strStartsWith b "#" then strDropChars b 1
  else b

/-- Simulation of the regex DYNAMIC_ARG_RE: an opening bracket, any characters
other than a line feed, a closing bracket, spanning the whole string. -/
def dynamicArgTest (s : String) : Bool :=
  match s.data with
  | '[' :: rest =>
    (match rest.getLast? with
     | some ']' => !(rest.dropLast.contains '\n')
     | _ => false)
  | _ => false

/-- First-match case insensitive lookup in the raw attribute map. -/
def attrLookup (m : AttrsMap) (name : String) : Option (Option (String × QuoteType)) :=
  (m.find? (fun e => eqIC e.1 name)).map Prod.snd

/-- Upsert into the raw attribute map: replace the value of an existing case
insensitive key, keeping the stored key, else append. -/
def attrInsert (m : AttrsMap) (key : String) (v : Option (String × QuoteType)) :
    AttrsMap :=
  if m.any (fun e => eqIC e.1 key) then
    m.map (fun e => if eqIC e.1 key then (e.1, v) else e)
  else m ++ [(key, v)]

/-- Insert into the case insensitive string set of ignored attribute names. -/
def setInsertCI (s : List String) (name : String) : List String :=
  if s.any (fun x => eqIC x name) then s else s ++ [name]

/-- External token: tag or text event from the html parser. -/
structure Token where
  kind : TokenKind
  data : String
  attrs : Option AttrsMap
  is_implied : Bool
deriving DecidableEq, Repr

/-- Sentinel for an empty slot scope, EMPTY_SLOT_SCOPE_TOKEN in the source. -/
def emptySlotScopeToken : String := "_empty_"

/-- The compiler annotation record attached to one token, ASTElement in the
source. scoped_slots maps the resolved slot name to the heap address of the
owned container node. -/
structure ASTElement where
  token : Token
  is_dev : Bool
  new_slot_syntax_flag : Bool
  forbidden : Bool
  pre : Bool
  plain : Bool
  ignored : List String
  processed : Bool
  ref_val : Option String
  ref_in_for : Bool
  component : Bool
  attrs : Option (List String)
  dynamic_attrs : Option (List String)
  key : Option String
  alias_val : Option String
  for_value : Option String
  iterator1 : Option String
  iterator2 : Option String
  if_val : Option String
  if_processed : Bool
  else_if_val : Option String
  is_else : Bool
  once : Bool
  slot_name : Option String
  slot_target : Option String
  slot_target_dynamic : Bool
  slot_scope : Option String
  scoped_slots : Option (List (String × Nat))
deriving DecidableEq, Repr

/-- create_ast_element from the source: all directive fields start unset. -/
def createAstElement (token : Token) (is_dev : Bool) : ASTElement :=
  { token := token
    is_dev := is_dev
    new_slot_syntax_flag := false
    forbidden := false
    pre := false
    plain := false
    ignored := []
    processed := false
    ref_val := none
    ref_in_for := false
    component := false
    attrs := none
    dynamic_attrs := none
    key := none
    alias_val := none
    for_value := none
    iterator1 := none
    iterator2 := none
    if_val := none
    if_processed := false
    else_if_val := none
    is_else := false
    once := false
    slot_name := none
    slot_target := none
    slot_target_dynamic := false
    slot_scope := none
    scoped_slots := none }

/-- Identity bearing tree node: children and the weak parent reference are
heap addresses. -/
structure ASTNode where
  id : Nat
  el : ASTElement
  children : List Nat
  parent : Option Nat
deriving DecidableEq, Repr

/-- The tree: the heap owns every allocated node by address; nodes is the
identity lookup table mapping a node id to its heap address. -/
structure ASTTree where
  heap : List ASTNode
  root : Nat
  counter : Nat
  nodes : List (Nat × Nat)
deriving DecidableEq, Repr

/-- ASTTree::new: synthetic root with identity 0, registered in the table. -/
def ASTTree.new (is_dev : Bool) : ASTTree :=
  let root : ASTNode :=
    { id := 0
      el := createAstElement
        { kind := TokenKind.ProcessingInstruction, data := "", attrs := none,
          is_implied := false } is_dev
      children := []
      parent := none }
  { heap := [root], root := 0, counter := 0, nodes := [(0, 0)] }

/-- ASTTree::get: identity table lookup, returning the heap address. -/
def ASTTree.get (t : ASTTree) (id : Nat) : Option Nat :=
  (t.nodes.find? (fun e => e.1 == id)).map Prod.snd

/-- ASTTree::create with an explicit record of the address currently mutably
borrowed by the caller, to reflect the RefCell borrow discipline. Mirrors the
source exactly: the id is counter plus one but the counter is not advanced,
the parent is looked up (unwrap panics when absent), the new node is pushed
into the parent child list, and the identity table is not updated. -/
def ASTTree.createB (t : ASTTree) (el : ASTElement) (parent_id : Nat)
    (borrowed : Option Nat) : Except Panic (ASTTree × Nat) :=
  let new_id := t.counter + 1
  match t.get parent_id with
  | none => .error .unwrapNone
  | some pAddr =>
    if borrowed = some pAddr then .error .borrowErr
    else
      match t.heap.get? pAddr with
      | none => .error .unwrapNone
      | some parentNode =>
        let addr := t.heap.length
        let node : ASTNode :=
          { id := new_id, el := el, children := [], parent := some pAddr }
        let heap :=
          (t.heap.set pAddr
            { parentNode with children := parentNode.children ++ [addr] }) ++ [node]
        .ok ({ t with heap := heap }, addr)

/-- ASTTree::create as called with no outstanding borrow. -/
def ASTTree.create (t : ASTTree) (el : ASTElement) (parent_id : Nat) :
    Except Panic (ASTTree × Nat) :=
  t.createB el parent_id none

/-- Record an attribute name in the ignored set of a node. -/
def insertIgnored (n : ASTNode) (name : String) : ASTNode :=
  { n with el := { n.el with ignored := setInsertCI n.el.ignored name } }

/-- ASTNode::has_raw_attr. -/
def hasRawAttr (n : ASTNode) (name : String) : Bool :=
  match n.el.token.attrs with
  | some m => m.any (fun e => eqIC e.1 name)
  | none => false

/-- ASTNode::get_raw_attr: non mutating value lookup. -/
def getRawAttr (n : ASTNode) (name : String) : Option String :=
  match n.el.token.attrs with
  | some m =>
    match attrLookup m name with
    | some (some (v, _)) => some v
    | _ => none
  | none => none

/-- ASTNode::get_and_remove_attr. When the key is present and fully_remove is
false the name is recorded in ignored; the map itself is never changed. The
value is returned only when the attribute carries one. -/
def getAndRemoveAttr (name : String) (fully_remove : Bool) (n : ASTNode) :
    Option String × ASTNode :=
  match n.el.token.attrs with
  | none => (none, n)
  | some m =>
    match attrLookup m name with
    | none => (none, n)
    | some vOpt =>
      let n2 := if fully_remove then n else insertIgnored n name
      (vOpt.map Prod.fst, n2)

/-- ASTNode::get_and_remove_attr_including_quotes: like getAndRemoveAttr but
returns the stored value together with its quote kind. -/
def getAndRemoveAttrIncludingQuotes (name : String) (fully_remove : Bool)
    (n : ASTNode) : Option (String × QuoteType) × ASTNode :=
  match n.el.token.attrs with
  | none => (none, n)
  | some m =>
    match attrLookup m name with
    | none => (none, n)
    | some vOpt =>
      let n2 := if fully_remove then n else insertIgnored n name
      (vOpt, n2)

/-- Loop body of ASTNode::get_and_remove_attr_by_regex: each matching name is
recorded in ignored; the first matching name that carries a value returns it. -/
def garByRegexLoop (p : String → Bool) :
    List (String × Option (String × QuoteType)) → ASTNode →
    Option String × ASTNode
  | [], n => (none, n)
  | (k, v) :: rest, n =>
    if p k then
      let n2 := insertIgnored n k
      match v with
      | some (val, _) => (some val, n2)
      | none => garByRegexLoop p rest n2
    else garByRegexLoop p rest n

/-- ASTNode::get_and_remove_attr_by_regex: unwraps the raw attribute map, so a
node without any attribute map panics. -/
def getAndRemoveAttrByRegex (p : String → Bool) (n : ASTNode) :
    Except Panic (Option String × ASTNode) :=
  match n.el.token.attrs with
  | none => .error .unwrapNone
  | some m => .ok (garByRegexLoop p m n)

/-- ASTNode::insert_into_attrs: upsert, creating the map if absent. -/
def insertIntoAttrs (n : ASTNode) (key : String) (value : String × QuoteType) :
    ASTNode :=
  match n.el.token.attrs with
  | some m =>
    { n with el := { n.el with
        token := { n.el.token with attrs := some (attrInsert m key (some value)) } } }
  | none =>
    { n with el := { n.el with
        token := { n.el.token with attrs := some [(key, some value)] } } }

/-- ASTNode::get_binding_attr, with the expression filter transform of the out
of scope filter_parser module passed in as the opaque function pf. Resolution
order: the colon binding, then the v-bind binding (both through pf), then,
only when get_static is set, the plain static attribute, else empty. -/
def getBindingAttr (pf : String → String) (name : String) (get_static : Bool)
    (n : ASTNode) : String × ASTNode :=
  let r1 := getAndRemoveAttrIncludingQuotes (":" ++ name) false n
  let r2 :=
    match r1.1 with
    | none => getAndRemoveAttrIncludingQuotes ("v-bind:" ++ name) false r1.2
    | some x => (some x, r1.2)
  match r2.1 with
  | some (v, _) => (pf v, r2.2)
  | none =>
    if get_static then
      match getAndRemoveAttr name false r2.2 with
      | (some v, n3) => (v, n3)
      | (none, n3) => ("", n3)
    else ("", r2.2)

/-- ASTNode::process_raw_attributes: a node with no attribute map is plain. -/
def processRawAttributes (n : ASTNode) : ASTNode :=
  if n.el.token.attrs.isNone then
    { n with el := { n.el with plain := true } }
  else n

/-- ASTNode::process_pre. -/
def processPre (n : ASTNode) : ASTNode :=
  let r := getAndRemoveAttr "v-pre" false n
  if r.1.isSome then
    { r.2 with el := { r.2.el with pre := true } }
  else r.2

/-- Result record of parse_for. -/
structure ForParseResult where
  alias_val : String
  for_value : String
  iterator1 : Option String
  iterator2 : Option String
deriving DecidableEq, Repr

/-- ASTNode::parse_for, faithfully including the source quirk that on an
iterator destructuring match the alias field is set from the first iterator
capture rather than from the text before the comma. -/
def parseFor (exp : String) : Option ForParseResult :=
  match forAliasCaptures exp with
  | none => none
  | some (g1, g2) =>
    let alias0 := stripParensReplace (trimStr g1)
    let res : ForParseResult :=
      { alias_val := alias0, for_value := trimStr g2,
        iterator1 := none, iterator2 := none }
    match forIteratorSearch alias0.data with
    | some (it1, it2) =>
      some { res with
        alias_val := trimStr ⟨it1⟩
        iterator1 := some (trimStr ⟨it1⟩)
        iterator2 := it2.map (fun l => trimStr ⟨l⟩) }
    | none => some res

/-- ASTNode::process_for. -/
def processFor (n : ASTNode) : ASTNode :=
  let r := getAndRemoveAttr "v-for" false n
  match r.1 with
  | none => r.2
  | some v =>
    match parseFor v with
    | some res =>
      { r.2 with el := { r.2.el with
          alias_val := some res.alias_val
          for_value := some res.for_value
          iterator1 := res.iterator1
          iterator2 := res.iterator2 } }
    | none => r.2

/-- ASTNode::process_if: v-if wins; otherwise v-else and v-else-if are both
checked independently. -/
def processIf (n : ASTNode) : ASTNode :=
  let r := getAndRemoveAttr "v-if" false n
  match r.1 with
  | some v => { r.2 with el := { r.2.el with if_val := some v } }
  | none =>
    let rElse := getAndRemoveAttr "v-else" false r.2
    let n2 :=
      if rElse.1.isSome then
        { rElse.2 with el := { rElse.2.el with is_else := true } }
      else rElse.2
    let rElseIf := getAndRemoveAttr "v-else-if" false n2
    match rElseIf.1 with
    | some v => { rElseIf.2 with el := { rElseIf.2.el with if_val := some v } }
    | none => rElseIf.2

/-- ASTNode::process_once. -/
def processOnce (n : ASTNode) : ASTNode :=
  let r := getAndRemoveAttr "v-once" false n
  if r.1.isSome then
    { r.2 with el := { r.2.el with once := true } }
  else r.2

/-- Resolved slot name together with its dynamic flag. -/
structure SlotName where
  name : String
  dynamic : Bool
deriving DecidableEq, Repr

/-- get_slot_name from the source: strip the v-slot or shorthand marker; an
empty remainder defaults to the literal name default unless the shorthand was
used bare; a bracketed remainder is dynamic with the brackets stripped; any
other remainder is static and gets wrapped in quotation marks. -/
def getSlotName (binding : String) : SlotName :=
  let name0 := slotReReplace binding
  let name :=
    if strIsEmpty name0 && !(strStartsWith binding "#") then "default" else name0
  if dynamicArgTest name then
    { name := ⟨name.data.tail.dropLast⟩, dynamic := true }
  else
    { name := "\"" ++ name ++ "\"", dynamic := false }

/-- First section of ASTNode::process_slot_content: legacy scope resolution.
On a template tag the deprecated scope attribute wins over slot-scope; on any
other tag slot-scope is read (twice when present, a source quirk that only
re-marks the ignored set). -/
def slotScopePart (n : ASTNode) : ASTNode :=
  if eqIC n.el.token.data "template" then
    let r := getAndRemoveAttr "scope" false n
    match r.1 with
    | some v => { r.2 with el := { r.2.el with slot_scope := some v } }
    | none =>
      let r2 := getAndRemoveAttr "slot-scope" false r.2
      { r2.2 with el := { r2.2.el with slot_scope := r2.1 } }
  else
    let r := getAndRemoveAttr "slot-scope" false n
    let n2 := if r.1.isSome then (getAndRemoveAttr "slot-scope" false r.2).2 else r.2
    { n2 with el := { n2.el with slot_scope := r.1 } }

/-- Second section of ASTNode::process_slot_content: the slot attribute sets
slot_target (empty normalizes to default) and slot_target_dynamic, and for non
template non scoped nodes the slot attribute is re-inserted into the map. -/
def slotTargetPart (n : ASTNode) : ASTNode :=
  let r := getAndRemoveAttr "slot" false n
  match r.1 with
  | none => r.2
  | some v =>
    let n2 := { r.2 with el := { r.2.el with
        slot_target := some (if strIsEmpty v then "default" else v) } }
    let n3 := { n2 with el := { n2.el with
        slot_target_dynamic :=
          hasRawAttr n2 "slot" || hasRawAttr n2 "v-bind:slot" } }
    if !eqIC n3.el.token.data "template" && n3.el.slot_scope.isNone then
      insertIntoAttrs n3 "slot" (v, QuoteType.NoValue)
    else n3

/-- Heap update for the structural slot rewrite: each current child of the
processed node whose slot_scope is unset is re-parented to the address
registered for the processed node and collected for the container; a child
address equal to the borrowed self address would be a RefCell double borrow. -/
def moveChildren (heap : List ASTNode) (parentAddr selfAddr : Nat) :
    List Nat → Except Panic (List ASTNode × List Nat)
  | [] => .ok (heap, [])
  | c :: rest =>
    if c = selfAddr then .error .borrowErr
    else
      match heap.get? c with
      | none => .error .unwrapNone
      | some child =>
        if child.el.slot_scope.isNone then
          let heap2 := heap.set c { child with parent := some parentAddr }
          match moveChildren heap2 parentAddr selfAddr rest with
          | .error e => .error e
          | .ok (h, kept) => .ok (h, c :: kept)
        else moveChildren heap parentAddr selfAddr rest

/-- Upsert into the case insensitive scoped slots map. -/
def mapInsertAddr (m : List (String × Nat)) (k : String) (v : Nat) :
    List (String × Nat) :=
  if m.any (fun e => eqIC e.1 k) then
    m.map (fun e => if eqIC e.1 k then (e.1, v) else e)
  else m ++ [(k, v)]

/-- Third section of ASTNode::process_slot_content: the 2.6 v-slot syntax,
gated by the new slot syntax flag. On a template tag the regex matched binding
fills the slot fields of the node itself; on any other tag the structural
rewrite creates a synthetic template container through the tree, moves the
children without a slot scope into it, registers it under the resolved name in
scoped_slots, clears the child list and marks the node non plain. The node
being processed is mutably borrowed, so the tree operations that resolve its
identity either panic on the unwrap (the identity was never registered) or
would double borrow. -/
def vSlotPart (t : ASTTree) (n : ASTNode) (selfAddr : Nat) :
    Except Panic (ASTTree × ASTNode) :=
  if !n.el.new_slot_syntax_flag then .ok (t, n)
  else if eqIC n.el.token.data "template" then
    match getAndRemoveAttrByRegex slotReTest n with
    | .error e => .error e
    | .ok (none, n2) => .ok (t, n2)
    | .ok (some val, n2) =>
      let sn := getSlotName val
      .ok (t, { n2 with el := { n2.el with
          slot_target := some sn.name
          slot_target_dynamic := sn.dynamic
          slot_scope :=
            some (if strIsEmpty val then emptySlotScopeToken else val) } })
  else
    match getAndRemoveAttrByRegex slotReTest n with
    | .error e => .error e
    | .ok (none, n2) => .ok (t, n2)
    | .ok (some val, n2) =>
      let n3 :=
        if n2.el.scoped_slots.isSome then n2
        else { n2 with el := { n2.el with scoped_slots := some [] } }
      let sn := getSlotName val
      match t.createB
          (createAstElement
            { kind := TokenKind.OpenTag, data := "template", attrs := none,
              is_implied := false } n3.el.is_dev)
          n3.id (some selfAddr) with
      | .error e => .error e
      | .ok (t2, contAddr) =>
        match t2.get n3.id with
        | none => .error .unwrapNone
        | some parentAddr =>
          match moveChildren t2.heap parentAddr selfAddr n3.children with
          | .error e => .error e
          | .ok (heap, kept) =>
            match heap.get? contAddr with
            | none => .error .unwrapNone
            | some cont =>
              let cont2 := { cont with
                el := { cont.el with
                  slot_target := some sn.name
                  slot_target_dynamic := sn.dynamic
                  slot_scope :=
                    some (if strIsEmpty val then emptySlotScopeToken else val) }
                children := kept }
              let heap2 := heap.set contAddr cont2
              let slots := n3.el.scoped_slots.getD []
              let n4 := { n3 with
                el := { n3.el with
                  scoped_slots := some (mapInsertAddr slots sn.name contAddr)
                  plain := false }
                children := [] }
              .ok ({ t2 with heap := heap2 }, n4)

/-- ASTNode::process_slot_content: the three sections in source order. -/
def processSlotContent (t : ASTTree) (n : ASTNode) (selfAddr : Nat) :
    Except Panic (ASTTree × ASTNode) :=
  vSlotPart t (slotTargetPart (slotScopePart n)) selfAddr

/-- Ancestor walk of ASTNode::check_in_for, fuel bounded by the heap size. -/
def checkInForGo (t : ASTTree) : Option Nat → Nat → Bool
  | _, 0 => false
  | none, _ => false
  | some a, fuel + 1 =>
    match t.heap.get? a with
    | none => false
    | some node => node.el.for_value.isSome || checkInForGo t node.parent fuel

/-- ASTNode::check_in_for: true when the node itself or an ancestor carries a
for_value. -/
def checkInFor (t : ASTTree) (n : ASTNode) : Bool :=
  n.el.for_value.isSome || checkInForGo t n.parent (t.heap.length + 1)

/-- ASTNode::process_key: the key is resolved through the binding precedence
and, only in dev mode, stored; the transition-group diagnostic path unwraps
the parent reference. -/
def processKey (pf : String → String) (n : ASTNode) : Except Panic ASTNode :=
  let r := getBindingAttr pf "key" false n
  let exp := r.1
  let n2 := r.2
  if strIsEmpty exp then .ok n2
  else if n2.el.is_dev then
    let h1 := n2.el.iterator1 == some exp
    let h2 := n2.el.iterator2 == some exp
    if n2.el.for_value.isSome && (h1 || h2) then
      match n2.parent with
      | none => .error .unwrapNone
      | some _ => .ok { n2 with el := { n2.el with key := some exp } }
    else .ok { n2 with el := { n2.el with key := some exp } }
  else .ok n2

/-- ASTNode::process_ref. -/
def processRef (t : ASTTree) (n : ASTNode) : ASTNode :=
  let r := getAndRemoveAttr "ref" false n
  match r.1 with
  | none => r.2
  | some v =>
    { r.2 with el := { r.2.el with
        ref_val := some v, ref_in_for := checkInFor t r.2 } }

/-- ASTNode::process_element: key, plain-ness, ref, then slot content. -/
def processElement (t : ASTTree) (selfAddr : Nat) (pf : String → String)
    (n : ASTNode) : Except Panic (ASTTree × ASTNode) :=
  match processKey pf n with
  | .error e => .error e
  | .ok n2 =>
    let n3 := { n2 with el := { n2.el with
        plain := n2.el.key.isNone && n2.el.scoped_slots.isNone &&
          n2.el.token.attrs.isNone } }
    let n4 := processRef t n3
    processSlotContent t n4 selfAddr

/-- Modelled from the spec: the element_processor module is not under src. Per
spec section 4.4, element finalization at close tag time resolves the key,
recomputes plain-ness, resolves the ref and runs slot content processing,
which is exactly the process_element method of the node present in
ast_tree.rs. -/
def elementProcessorProcessElement (t : ASTTree) (selfAddr : Nat)
    (pf : String → String) (n : ASTNode) : Except Panic (ASTTree × ASTNode) :=
  processElement t selfAddr pf n

/-- Host compiler configuration consumed by the driver. -/
structure CompilerOptions where
  dev : Bool
  is_ssr : Bool
  is_pre_tag : Option (String → Bool)

/-- Modelled from the spec: the util module providing get_attribute is not
under src. Per the token model of spec section 3 it is a case insensitive
lookup in the raw attribute map of a token, returning the value and quote
pair of a valued attribute. -/
def get_attribute (t : Token) (name : String) : Option (String × QuoteType) :=
  match t.attrs with
  | none => none
  | some m =>
    match attrLookup m name with
    | some (some vq) => some vq
    | _ => none

/-- is_forbidden_tag from lib.rs: style, or script whose type attribute is
text/javascript. -/
def isForbiddenTag (t : Token) : Bool :=
  if t.kind = TokenKind.OpenTag then
    if t.data = "style" then true
    else if t.data = "script" then
      match get_attribute t "type" with
      | some (v, _) => v = "text/javascript"
      | none => false
    else false
  else false

/-- VueParser::platform_is_pre_tag. -/
def platformIsPreTag (opts : CompilerOptions) (tag : String) : Bool :=
  match opts.is_pre_tag with
  | some f => f tag
  | none => false

/-- State the parsing driver carries across the token stream. -/
structure ParserState where
  tree : ASTTree
  stack : List Nat
  in_v_pre : Bool
  in_pre : Bool
  warned : Bool
  current_parent_id : Nat
deriving Repr

/-- Open tag transition of VueParser::parse: create the node under the stored
parent id, mark it forbidden when applicable, run process_pre outside a v-pre
region and latch in_v_pre when the node set pre, latch in_pre for platform pre
tags, then run either raw attribute handling (inside v-pre) or the for, if and
once processors, and push the node identity. -/
def stepOpen (opts : CompilerOptions) (s : ParserState) (tok : Token) :
    Except Panic ParserState :=
  match s.tree.createB (createAstElement tok opts.dev) s.current_parent_id none with
  | .error e => .error e
  | .ok (tree, addr) =>
    match tree.heap.get? addr with
    | none => .error .unwrapNone
    | some node0 =>
      let node1 :=
        if isForbiddenTag node0.el.token && !opts.is_ssr then
          { node0 with el := { node0.el with forbidden := true } }
        else node0
      let pr :=
        if !s.in_v_pre then
          let n := processPre node1
          (n, n.el.pre || s.in_v_pre)
        else (node1, s.in_v_pre)
      let node2 := pr.1
      let inVPre := pr.2
      let inPre := if platformIsPreTag opts node2.el.token.data then true else s.in_pre
      let node3 :=
        if inVPre then processRawAttributes node2
        else if !node2.el.processed then processOnce (processIf (processFor node2))
        else node2
      .ok { s with
        tree := { tree with heap := tree.heap.set addr node3 }
        stack := node3.id :: s.stack
        in_v_pre := inVPre
        in_pre := inPre }

/-- Close tag transition of VueParser::parse: pop the innermost open identity,
look it up in the identity table (unwrap), and outside v-pre run element
finalization on the node when it was not already processed. -/
def stepClose (_opts : CompilerOptions) (pf : String → String) (s : ParserState) :
    Except Panic ParserState :=
  match s.stack with
  | [] => .ok s
  | id :: rest =>
    match s.tree.get id with
    | none => .error .unwrapNone
    | some addr =>
      match s.tree.heap.get? addr with
      | none => .error .unwrapNone
      | some node =>
        if !s.in_v_pre && !node.el.processed then
          match elementProcessorProcessElement s.tree addr pf node with
          | .error e => .error e
          | .ok (tree, node2) =>
            .ok { s with
              tree := { tree with heap := tree.heap.set addr node2 }
              stack := rest }
        else .ok { s with stack := rest }

/-- One transition of the token stream state machine of VueParser::parse. Text
tokens are unhandled; any other kind is the todo arm. -/
def step (opts : CompilerOptions) (pf : String → String) (s : ParserState)
    (tok : Token) : Except Panic ParserState :=
  match tok.kind with
  | TokenKind.OpenTag => stepOpen opts s tok
  | TokenKind.CloseTag => stepClose opts pf s
  | TokenKind.Text => .ok s
  | TokenKind.ProcessingInstruction => .error .todoUnimplemented

/-- Run the driver over a list of tokens. -/
def runTokens (opts : CompilerOptions) (pf : String → String) :
    ParserState → List Token → Except Panic ParserState
  | s, [] => .ok s
  | s, tok :: rest =>
    match step opts pf s tok with
    | .error e => .error e
    | .ok s2 => runTokens opts pf s2 rest

/-- Initial driver state of VueParser::parse. -/
def initParserState (opts : CompilerOptions) : ParserState :=
  { tree := ASTTree.new opts.dev, stack := [], in_v_pre := false,
    in_pre := false, warned := false, current_parent_id := 0 }

/-- VueParser::parse on an already tokenized template. -/
def parse (opts : CompilerOptions) (pf : String → String) (toks : List Token) :
    Except Panic ASTTree :=
  match runTokens opts pf (initParserState opts) toks with
  | .error e => .error e
  | .ok s => .ok s.tree

/-- Project the ok payload of an Except, with a fallback. -/
def okOr {α : Type} (d : α) : Except Panic α → α
  | .ok a => a
  | .error _ => d

/-- Is the Except an ok value. -/
def isOkE {α : Type} : Except Panic α → Bool
  | .ok _ => true
  | .error _ => false

section ConcreteInputs

/-- Open tag token for a plain div with no attributes. -/
def divTok : Token :=
  { kind := TokenKind.OpenTag, data := "div", attrs := none, is_implied := false }

def c1_el : ASTElement := createAstElement divTok false

def c1_tree0 : ASTTree := ASTTree.new false

def c1_pair1 : ASTTree × Nat := okOr (c1_tree0, 0) (c1_tree0.create c1_el 0)

def c1_pair2 : ASTTree × Nat := okOr (c1_pair1.1, 0) (c1_pair1.1.create c1_el 0)

def c2_opts : CompilerOptions := { dev := true, is_ssr := false, is_pre_tag := none }

def c2_tok1 : Token :=
  { kind := TokenKind.OpenTag
    data := "div"
    attrs := some [("v-if", some ("a", QuoteType.Double))]
    is_implied := false }

def c2_tok2 : Token :=
  { kind := TokenKind.OpenTag
    data := "span"
    attrs := some [("v-for", some ("x in xs", QuoteType.Double)),
                   (":key", some ("x", QuoteType.Double))]
    is_implied := false }

def c2_tok3 : Token :=
  { kind := TokenKind.Text, data := "\x7b\x7bx\x7d\x7d", attrs := none, is_implied := false }

def c2_tok4 : Token :=
  { kind := TokenKind.CloseTag, data := "span", attrs := none, is_implied := false }

def c2_tok5 : Token :=
  { kind := TokenKind.CloseTag, data := "div", attrs := none, is_implied := false }

/-- Token stream of the end to end template of claim C2. -/
def c2_tokens : List Token := [c2_tok1, c2_tok2, c2_tok3, c2_tok4, c2_tok5]

def c3_tok : Token :=
  { kind := TokenKind.OpenTag
    data := "div"
    attrs := some [("v-slot:foo", some ("s", QuoteType.Double))]
    is_implied := false }

def bTok : Token :=
  { kind := TokenKind.OpenTag, data := "b", attrs := none, is_implied := false }

def iTok : Token :=
  { kind := TokenKind.OpenTag, data := "i", attrs := none, is_implied := false }

def piTok : Token :=
  { kind := TokenKind.ProcessingInstruction, data := "", attrs := none, is_implied := false }

def c3_rootN : ASTNode :=
  { id := 0
    el := createAstElement piTok false
    children := [1]
    parent := none }

/-- Child carrying its own slot_scope. -/
def c3_child1 : ASTNode :=
  { id := 1
    el := { (createAstElement bTok false) with slot_scope := some "sc" }
    children := []
    parent := some 1 }

/-- Child without a slot_scope. -/
def c3_child2 : ASTNode :=
  { id := 1
    el := createAstElement iTok false
    children := []
    parent := some 1 }

/-- The non template node carrying the modern slot binding, with the identity
the source create operation actually hands out (1, unregistered). -/
def c3_div : ASTNode :=
  { id := 1
    el := { (createAstElement c3_tok false) with new_slot_syntax_flag := true }
    children := [2, 3]
    parent := some 0 }

def c3_tree : ASTTree :=
  { heap := [c3_rootN, c3_div, c3_child1, c3_child2]
    root := 0
    counter := 0
    nodes := [(0, 0)] }

def c5_tok : Token :=
  { kind := TokenKind.OpenTag
    data := "div"
    attrs := some [(":x", some ("a", QuoteType.Double)),
                   ("x", some ("b", QuoteType.Double))]
    is_implied := false }

/-- Node carrying both a dynamic and a static binding for x. -/
def c5_node : ASTNode :=
  { id := 1
    el := createAstElement c5_tok false
    children := []
    parent := some 0 }

def c7_tok : Token :=
  { kind := TokenKind.OpenTag
    data := "div"
    attrs := some [("slot", some ("foo", QuoteType.Double))]
    is_implied := false }

/-- Node carrying only a purely static slot attribute. -/
def c7_node : ASTNode :=
  { id := 1
    el := createAstElement c7_tok false
    children := []
    parent := some 0 }

/-- Observable slot target outcome of slot content processing on c7_node. -/
def c7_result : Option (Option String × Bool) :=
  match processSlotContent (ASTTree.new false) c7_node 1 with
  | .ok p => some (p.2.el.slot_target, p.2.el.slot_target_dynamic)
  | .error _ => none

/-- C6 witness map and node: one valued attribute named x. -/
def c6_map : AttrsMap := [("x", some ("1", QuoteType.Double))]

def c6_node : ASTNode :=
  { id := 1
    el := createAstElement
      { kind := TokenKind.OpenTag, data := "div", attrs := some c6_map,
        is_implied := false } false
    children := []
    parent := some 0 }

/-- Node without any attribute map but with the new slot syntax flag set. -/
def c9_node : ASTNode :=
  { id := 1
    el := { (createAstElement bTok false) with new_slot_syntax_flag := true }
    children := []
    parent := some 0 }

/-- Options and state for the C8 witness: a driver state already inside a
v-pre region. -/
def c8_opts : CompilerOptions := { dev := false, is_ssr := false, is_pre_tag := none }

def c8_state : ParserState :=
  { initParserState c8_opts with in_v_pre := true }

end ConcreteInputs

/-- The raw value stored in the attribute map of a node under a given name,
when that attribute is present and carries a value. -/
def rawValueOf (n : ASTNode) (nm : String) : Option String :=
  match n.el.token.attrs with
  | some m =>
    match attrLookup m nm with
    | some (some (v, _)) => some v
    | _ => none
  | none => none

/-- C1: the claim says every node created through the tree gets a unique,
monotonically assigned identity starting at 1 and is immediately retrievable
through get. The code instead computes counter plus one without ever advancing
the counter and never registers the node in the identity table: the first and
the second created node both get identity 1 (reuse), and get with the new
identity returns none right after create returns. -/
theorem spec_c1_identity_code_bug :
    isOkE (c1_tree0.create c1_el 0) = true
    ∧ (c1_pair1.1.heap.get? c1_pair1.2).map ASTNode.id = some 1
    ∧ c1_pair1.1.get 1 = none
    ∧ c1_pair1.1.counter = 0
    ∧ isOkE (c1_pair1.1.create c1_el 0) = true
    ∧ (c1_pair2.1.heap.get? c1_pair2.2).map ASTNode.id = some 1
    ∧ c1_pair1.2 ≠ c1_pair2.2 := by
  refine ⟨rfl, rfl, rfl, rfl, rfl, rfl, ?_⟩
  decide

/-- C2: the claim says parsing the template div v-if with a span v-for child
terminates normally and produces the annotated tree. The embedded driver run
on the corresponding token stream instead aborts with the unwrap panic at the
first close tag, because create never registered the span identity in the
lookup table. -/
theorem spec_c2_parse_code_bug :
    parse c2_opts (fun s => s) c2_tokens = .error .unwrapNone := by
  rfl

/-- C3: the claim says slot content processing of a non template node with the
modern binding v-slot:foo terminates normally and moves the scope free child
into a fresh template container under scoped_slots at key foo. The code
instead aborts with the unwrap panic inside the tree create call (the
processed node was never registered under its identity), and independently it
resolves the slot name from the binding value rather than the binding name,
as the second conjunct shows. -/
theorem spec_c3_slot_rewrite_code_bug :
    processSlotContent c3_tree c3_div 1 = .error .unwrapNone
    ∧ getSlotName "s" = { name := "\"s\"", dynamic := false }
    ∧ getSlotName "v-slot:foo" = { name := "\"foo\"", dynamic := false } := by
  refine ⟨rfl, rfl, rfl⟩

/-- C4: the claim says parse_for splits item in list into alias item and
value list (which holds) and splits the destructuring form so that the alias
is the portion before the first comma, val. The code instead assigns the first
iterator capture to the alias as well: the second conjunct evaluates to alias
idx, not val. -/
theorem spec_c4_parse_for_code_bug :
    parseFor "item in list" =
      some { alias_val := "item", for_value := "list",
             iterator1 := none, iterator2 := none }
    ∧ parseFor "(val, idx) in items" =
      some { alias_val := "idx", for_value := "items",
             iterator1 := some "idx", iterator2 := none } := by
  refine ⟨rfl, rfl⟩

/-- Case insensitive equality is reflexive. -/
theorem eqIC_self (a : String) : eqIC a a = true := by
  simp [eqIC]

/-- The inserted name is a case insensitive member of the resulting set. -/
theorem mem_setInsertCI (s : List String) (name : String) :
    (setInsertCI s name).any (fun x => eqIC x name) = true := by
  unfold setInsertCI
  by_cases h : s.any (fun x => eqIC x name) = true
  · simp [h]
  · simp [h, eqIC_self]

/-- C10: for every node, name and both values of the fully_remove flag, the
two attribute consumption primitives leave the raw attribute map unchanged,
their returned value does not depend on the flag, and with the flag set the
node is returned completely untouched (so the only observable effect of the
flag is that the name is not recorded in the ignored set). -/
theorem spec_c10_fully_remove_never_removes :
    ∀ (n : ASTNode) (name : String) (fr : Bool),
      (getAndRemoveAttr name fr n).2.el.token.attrs = n.el.token.attrs
      ∧ (getAndRemoveAttrIncludingQuotes name fr n).2.el.token.attrs = n.el.token.attrs
      ∧ (getAndRemoveAttr name fr n).1 = (getAndRemoveAttr name false n).1
      ∧ (getAndRemoveAttrIncludingQuotes name fr n).1 =
          (getAndRemoveAttrIncludingQuotes name false n).1
      ∧ (getAndRemoveAttr name true n).2 = n
      ∧ (getAndRemoveAttrIncludingQuotes name true n).2 = n := by
  intro n name fr
  unfold getAndRemoveAttr getAndRemoveAttrIncludingQuotes
  cases hA : n.el.token.attrs with
  | none => simp [hA]
  | some m =>
    cases hL : attrLookup m name with
    | none => simp [hA, hL]
    | some vOpt =>
      cases fr <;> simp [hA, hL, insertIgnored]

/-- C6: get_and_remove_attr with fully_remove false on a node whose map holds
a valued attribute under the name returns that value, records the name in the
ignored set, and leaves the raw attribute map unchanged; when the name is
absent it returns none and leaves the node untouched. -/
theorem spec_c6_consume_marks_ignored :
    ∀ (n : ASTNode) (m : AttrsMap) (name v : String) (q : QuoteType),
      (n.el.token.attrs = some m →
        attrLookup m name = some (some (v, q)) →
          (getAndRemoveAttr name false n).1 = some v
          ∧ (getAndRemoveAttr name false n).2.el.token.attrs = some m
          ∧ (getAndRemoveAttr name false n).2.el.ignored.any
              (fun x => eqIC x name) = true)
      ∧ (n.el.token.attrs = some m →
        attrLookup m name = none →
          getAndRemoveAttr name false n = (none, n)) := by
  intro n m name v q
  constructor
  · intro hA hL
    unfold getAndRemoveAttr
    simp [hA, hL, insertIgnored, mem_setInsertCI]
  · intro hA hL
    unfold getAndRemoveAttr
    simp [hA, hL]

/-- Witness for C6 at a concrete node with a present attribute. -/
theorem spec_c6_witness :
    (getAndRemoveAttr "x" false c6_node).1 = some "1"
    ∧ (getAndRemoveAttr "x" false c6_node).2.el.token.attrs = some c6_map
    ∧ (getAndRemoveAttr "x" false c6_node).2.el.ignored.any
        (fun x => eqIC x "x") = true :=
  (spec_c6_consume_marks_ignored c6_node c6_map "x" "1" QuoteType.Double).1 rfl rfl

/-- C5: binding attribute resolution order. For every filter transform pf,
name, static flag and node: the colon binding wins and is returned through pf;
otherwise the v-bind binding, through pf; otherwise, only with the static flag
set, the plain static attribute is returned unfiltered; otherwise the empty
string. In particular on the node carrying both a dynamic and a static x the
result is the filtered dynamic value, never the static one. -/
theorem spec_c5_binding_attr_precedence :
    (∀ (pf : String → String) (name : String) (gs : Bool) (n : ASTNode),
      (getBindingAttr pf name gs n).1 =
        match rawValueOf n (":" ++ name) with
        | some v => pf v
        | none =>
          match rawValueOf n ("v-bind:" ++ name) with
          | some v => pf v
          | none => if gs then (rawValueOf n name).getD "" else "")
    ∧ (∀ pf : String → String, (getBindingAttr pf "x" true c5_node).1 = pf "a") := by
  constructor
  · intro pf name gs n
    unfold getBindingAttr getAndRemoveAttrIncludingQuotes getAndRemoveAttr rawValueOf
    cases hA : n.el.token.attrs with
    | none =>
      cases gs <;> simp [hA]
    | some m =>
      cases hL1 : attrLookup m (":" ++ name) with
      | none =>
        cases hL2 : attrLookup m ("v-bind:" ++ name) with
        | none =>
          cases hL3 : attrLookup m name with
          | none => cases gs <;> simp [hA, hL1, hL2, hL3]
          | some vOpt3 =>
            cases vOpt3 with
            | none => cases gs <;> simp [hA, hL1, hL2, hL3, insertIgnored]
            | some vq => cases gs <;> simp [hA, hL1, hL2, hL3, insertIgnored]
        | some vOpt2 =>
          cases vOpt2 with
          | none =>
            cases hL3 : attrLookup m name with
            | none => cases gs <;> simp [hA, hL1, hL2, hL3, insertIgnored]
            | some vOpt3 =>
              cases vOpt3 with
              | none => cases gs <;> simp [hA, hL1, hL2, hL3, insertIgnored]
              | some vq => cases gs <;> simp [hA, hL1, hL2, hL3, insertIgnored]
          | some vq => simp [hA, hL1, hL2, insertIgnored]
      | some vOpt1 =>
        cases vOpt1 with
        | none =>
          cases hL2 : attrLookup m ("v-bind:" ++ name) with
          | none =>
            cases hL3 : attrLookup m name with
            | none => cases gs <;> simp [hA, hL1, hL2, hL3, insertIgnored]
            | some vOpt3 =>
              cases vOpt3 with
              | none => cases gs <;> simp [hA, hL1, hL2, hL3, insertIgnored]
              | some vq => cases gs <;> simp [hA, hL1, hL2, hL3, insertIgnored]
          | some vOpt2 =>
            cases vOpt2 with
            | none =>
              cases hL3 : attrLookup m name with
              | none => cases gs <;> simp [hA, hL1, hL2, hL3, insertIgnored]
              | some vOpt3 =>
                cases vOpt3 with
                | none => cases gs <;> simp [hA, hL1, hL2, hL3, insertIgnored]
                | some vq => cases gs <;> simp [hA, hL1, hL2, hL3, insertIgnored]
            | some vq => simp [hA, hL1, hL2, insertIgnored]
        | some vq => simp [hA, hL1, insertIgnored]
  · intro pf
    rfl

/-- On a node without an attribute map the legacy scope section only resets
slot_scope to none, in both the template and the non template branch. -/
theorem slotScopePart_attrs_none (n : ASTNode) (h : n.el.token.attrs = none) :
    slotScopePart n = { n with el := { n.el with slot_scope := none } } := by
  unfold slotScopePart getAndRemoveAttr
  by_cases ht : eqIC n.el.token.data "template" = true <;> simp [ht, h]

/-- On a node without an attribute map the slot target section is a no-op. -/
theorem slotTargetPart_attrs_none (n : ASTNode) (h : n.el.token.attrs = none) :
    slotTargetPart n = n := by
  unfold slotTargetPart getAndRemoveAttr
  simp [h]

/-- With the new slot syntax flag set, the v-slot section starts with the
regex lookup, whose unwrap of a missing attribute map panics. -/
theorem vSlotPart_attrs_none (t : ASTTree) (a : Nat) (n : ASTNode)
    (h : n.el.token.attrs = none) (hf : n.el.new_slot_syntax_flag = true) :
    vSlotPart t n a = .error .unwrapNone := by
  unfold vSlotPart getAndRemoveAttrByRegex
  by_cases ht : eqIC n.el.token.data "template" = true <;> simp [ht, h, hf]

/-- C9: a node whose token carries no raw attribute map at all makes
get_and_remove_attr_by_regex panic on its unwrap instead of returning
absence, and consequently slot content processing with the new slot syntax
flag enabled aborts on any such node. -/
theorem spec_c9_missing_attrs_panics :
    ∀ (p : String → Bool) (t : ASTTree) (a : Nat) (n : ASTNode),
      n.el.token.attrs = none →
      getAndRemoveAttrByRegex p n = .error .unwrapNone
      ∧ (n.el.new_slot_syntax_flag = true →
          processSlotContent t n a = .error .unwrapNone) := by
  intro p t a n h
  constructor
  · unfold getAndRemoveAttrByRegex
    simp [h]
  · intro hf
    unfold processSlotContent
    rw [slotScopePart_attrs_none n h]
    have h2 : ({ n with el := { n.el with slot_scope := none } } : ASTNode).el.token.attrs
        = none := h
    rw [slotTargetPart_attrs_none _ h2]
    exact vSlotPart_attrs_none t a _ h2 hf

/-- Witness for C9 at a concrete attribute-less node. -/
theorem spec_c9_witness :
    getAndRemoveAttrByRegex slotReTest c9_node = .error .unwrapNone
    ∧ processSlotContent (ASTTree.new false) c9_node 1 = .error .unwrapNone := by
  have h := spec_c9_missing_attrs_panics slotReTest (ASTTree.new false) 1 c9_node rfl
  exact ⟨h.1, h.2 rfl⟩

/-- A successful open tag transition keeps in_v_pre set. -/
theorem stepOpen_preserves_in_v_pre (opts : CompilerOptions) (s : ParserState)
    (tok : Token) (s2 : ParserState) (h : stepOpen opts s tok = .ok s2)
    (hv : s.in_v_pre = true) : s2.in_v_pre = true := by
  unfold stepOpen at h
  split at h
  · simp at h
  · split at h
    · simp at h
    · simp only [Except.ok.injEq] at h
      subst h
      simp [hv]

/-- A successful close tag transition keeps in_v_pre set. -/
theorem stepClose_preserves_in_v_pre (opts : CompilerOptions)
    (pf : String → String) (s : ParserState) (s2 : ParserState)
    (h : stepClose opts pf s = .ok s2) (hv : s.in_v_pre = true) :
    s2.in_v_pre = true := by
  unfold stepClose at h
  split at h
  · simp only [Except.ok.injEq] at h
    subst h
    exact hv
  · split at h
    · simp at h
    · split at h
      · simp at h
      · split at h
        · split at h
          · simp at h
          · simp only [Except.ok.injEq] at h
            subst h
            exact hv
        · simp only [Except.ok.injEq] at h
          subst h
          exact hv

/-- A successful transition of the driver state machine keeps in_v_pre set. -/
theorem step_preserves_in_v_pre (opts : CompilerOptions) (pf : String → String)
    (s : ParserState) (tok : Token) (s2 : ParserState)
    (h : step opts pf s tok = .ok s2) (hv : s.in_v_pre = true) :
    s2.in_v_pre = true := by
  unfold step at h
  cases hk : tok.kind
  all_goals simp only [hk] at h
  case OpenTag => exact stepOpen_preserves_in_v_pre opts s tok s2 h hv
  case CloseTag => exact stepClose_preserves_in_v_pre opts pf s s2 h hv
  case Text =>
    simp only [Except.ok.injEq] at h
    subst h
    exact hv
  case ProcessingInstruction => simp at h

/-- Running any remaining token list from a state with in_v_pre set ends, on
success, in a state with in_v_pre still set. -/
theorem runTokens_preserves_in_v_pre (opts : CompilerOptions)
    (pf : String → String) :
    ∀ (toks : List Token) (s s2 : ParserState),
      runTokens opts pf s toks = .ok s2 → s.in_v_pre = true →
      s2.in_v_pre = true := by
  intro toks
  induction toks with
  | nil =>
    intro s s2 h hv
    unfold runTokens at h
    simp only [Except.ok.injEq] at h
    subst h
    exact hv
  | cons tok rest ih =>
    intro s s2 h hv
    unfold runTokens at h
    cases hs : step opts pf s tok with
    | error e => rw [hs] at h; simp at h
    | ok s1 =>
      rw [hs] at h
      exact ih s1 s2 h (step_preserves_in_v_pre opts pf s tok s1 hs hv)

/-- C8: once in_v_pre is true, no transition of the token stream state machine
ever sets it back to false: every successful step, and hence every successful
run over the remaining tokens (close tags included), ends with the flag still
true. -/
theorem spec_c8_in_v_pre_sticky :
    (∀ (opts : CompilerOptions) (pf : String → String) (s : ParserState)
        (tok : Token) (s2 : ParserState),
      step opts pf s tok = .ok s2 → s.in_v_pre = true → s2.in_v_pre = true)
    ∧ (∀ (opts : CompilerOptions) (pf : String → String) (toks : List Token)
        (s s2 : ParserState),
      runTokens opts pf s toks = .ok s2 → s.in_v_pre = true →
      s2.in_v_pre = true) :=
  ⟨step_preserves_in_v_pre, runTokens_preserves_in_v_pre⟩

/-- Witness for C8: running the remaining stream consisting of one close tag
token (empty stack) from a state with in_v_pre set keeps it set. -/
theorem spec_c8_witness : c8_state.in_v_pre = true :=
  spec_c8_in_v_pre_sticky.2 c8_opts (fun s => s) [c2_tok5] c8_state c8_state rfl rfl

/-- C7: the claim says a purely static slot attribute leaves
slot_target_dynamic false. The code recomputes the flag as has_raw_attr of the
very attribute it just consumed without removing, so on a node whose only
attribute is the static slot equals foo it sets slot_target to foo but
slot_target_dynamic to true. -/
theorem spec_c7_slot_target_dynamic_code_bug :
    c7_result = some (some "foo", true) := by
  rfl

end VueC
